import Mathlib

/-!
Shallow embedding of `quantum_memory_cell.py` (class `QuantumMemoryCell`)
from the repository `quantum-continuous-thought-machines`.

Torch float tensors are modelled over an arbitrary `Field` (instantiated
at `ℚ` in concrete witnesses); the constant `np.pi` used by the encoder is
modelled by a distinguished scalar `piS` passed explicitly.  Bitstrings of
measurement outcomes are modelled as `List Bool` (`true` standing for the
character `1`), counts dictionaries as association lists, and torch
tensors of shape `(n, h)` as lists of `n` rows, each a list of length `h`.
External engines (AerSimulator, QuantumRingsLib jobs, cuQuantum
simulators) are oracles: an `Env` structure records, per batch item, the
outcome of every fallible call the orchestration code makes.
-/

namespace QMC

/-- Backend modes accepted by `QuantumMemoryCell.__init__`. -/
inductive Mode
  | gpu
  | qrCloud
  | cpuQiskit
deriving DecidableEq, Repr

/-- Job status values (`JobStatus` in the source). -/
inductive JobStatus
  | queued
  | running
  | done
  | error
  | cancelled
deriving DecidableEq, Repr

/-- `status in [JobStatus.DONE, JobStatus.ERROR, JobStatus.CANCELLED]`
in the polling loop of `read`. -/
def JobStatus.isTerminal : JobStatus → Bool
  | .done => true
  | .error => true
  | .cancelled => true
  | _ => false

/-- A measurement counts table: bitstring to number of observations,
modelling the Python dict returned by `result.get_counts()`. -/
abbrev Counts := List (List Bool × Nat)

/-- The inner accumulation of `read` for one qubit index:
`prob1 += count_val` over all entries whose bitstring has length
`numQubits` and character `1` at position `numQubits - 1 - qubitIdx`
(qubit 0 is the rightmost character). -/
def prob1Count (numQubits : Nat) (counts : Counts) (qubitIdx : Nat) : Nat :=
  counts.foldl
    (fun acc bc =>
      if bc.1.length = numQubits ∧ bc.1.getD (numQubits - 1 - qubitIdx) false = true then
        acc + bc.2
      else acc) 0

/-- One entry of the `probs` tensor built at the end of `read`:
zero when the counts dict is empty (the `if counts:` guard), otherwise
`prob1 / shots if shots > 0 else 0.0`. -/
def qubitProb (α : Type) [Field α] (numQubits : Nat) (counts : Counts)
    (shots : Nat) (qubitIdx : Nat) : α :=
  if counts = [] then 0
  else if 0 < shots then (prob1Count numQubits counts qubitIdx : α) / (shots : α)
  else 0

/-- The whole `probs` vector of `read`, one entry per qubit index. -/
def qubitProbs (α : Type) [Field α] (numQubits : Nat) (counts : Counts)
    (shots : Nat) : List α :=
  (List.range numQubits).map (qubitProb α numQubits counts shots)

/-- The crafted counts table of the spec:
`{"00": 50, "01": 30, "10": 20}` with bitstrings as `List Bool`,
leftmost character first. -/
def countsC2 : Counts :=
  [([false, false], 50), ([false, true], 30), ([true, false], 20)]

/-- A `torch.nn.Linear` layer: `weight` has one row per output feature,
`bias` one entry per output feature. -/
structure Linear (α : Type) where
  weight : List (List α)
  bias : List α
deriving Repr

/-- Dot product of two feature lists (excess entries of either side are
ignored, as `zip` truncates; real tensors always agree in length). -/
def dotProd {α : Type} [Field α] (xs ys : List α) : α :=
  ((xs.zip ys).map (fun p => p.1 * p.2)).sum

/-- Application of a linear layer: `W · x + b`, one output per row of the
weight matrix. -/
def Linear.apply {α : Type} [Field α] (l : Linear α) (x : List α) : List α :=
  List.zipWith (fun row b => dotProd row x + b) l.weight l.bias

/-- Rotation axes used by `write` (`qc.ry` and `qc.rz`). -/
inductive Axis
  | ry
  | rz
deriving DecidableEq, Repr

/-- One single-qubit rotation appended to a circuit. -/
structure RotOp (α : Type) where
  axis : Axis
  angle : α
  qubit : Nat
deriving DecidableEq, Repr

/-- A slot blueprint: the named `QuantumCircuit` stored in
`quantum_memory_states` by `write` (non-GPU modes). -/
structure Blueprint (α : Type) where
  name : String
  numQubits : Nat
  ops : List (RotOp α)
deriving DecidableEq, Repr

/-- Modelled from the spec: the per-slot GPU simulator handle (class
`CuQuantumSimulator` of the module `cuquantum_sim`, which is imported by
`quantum_memory_cell.py` but absent from `src/`).  The spec gives each
handle a `release()` capability; `hasRelease` models whether the
attribute exists and is callable, `releaseRaises` whether calling it
raises. -/
structure GpuSim where
  hasRelease : Bool
  releaseRaises : Bool
deriving DecidableEq, Repr

/-- The state of a constructed `QuantumMemoryCell`. -/
structure Cell (α : Type) where
  numQubits : Nat
  memoryDepth : Nat
  classicalHiddenSize : Nat
  backendMode : Mode
  jobPollInterval : Nat
  jobTimeout : Nat
  encodingLinear : Linear α
  decodingLinear : Linear α
  quantumMemoryStates : List (Option (Blueprint α))
  gpuSimulators : Option (List GpuSim)
  backendPresent : Bool

/-- The external world for one `read` call: for each batch item index,
the outcome of every fallible call the orchestration makes to engines
outside `src/` (Aer, QuantumRings jobs, cuQuantum), plus the entropy
used by `torch.randn` fallbacks. -/
structure Env (α : Type) where
  gpuMeasureRes : Nat → Except Unit Counts
  toGateOk : Nat → Bool
  rebuildOk : Nat → Bool
  transpileOk : Nat → Bool
  runOk : Nat → Bool
  status : Nat → Nat → JobStatus
  resultCounts : Nat → Except Unit Counts
  randn : Nat → Nat → α

/-- A fallback row drawn by `torch.randn(1, classical_hidden_size)` for
one batch item; torch guarantees the shape, hence the length. -/
def randRow {α : Type} (env : Env α) (hiddenSize itemIdx : Nat) : List α :=
  (List.range hiddenSize).map (env.randn itemIdx)

/-- Failures of the per-item remote-job phase of `read`: the
`TimeoutError` of the polling loop, and the `RuntimeError` raised when
the terminal status is not `DONE`. -/
inductive ItemErr
  | timeout (lastStatus : JobStatus)
  | jobFailed (terminal : JobStatus)
deriving DecidableEq, Repr

/-- The polling loop of `read` (qr-cloud only), with elapsed time at the
n-th status query modelled as `n * interval` (each pass sleeps for the
poll interval).  The fuel argument only bounds recursion: with a
positive interval, the initial fuel supplied by `pollJob` cannot be
exhausted before the timeout check fires, and at fuel `0` the elapsed
time provably exceeds the timeout already, so returning the timeout
failure there agrees with the code. -/
def pollFrom (status : Nat → JobStatus) (timeout interval : Nat) :
    Nat → Nat → Except ItemErr JobStatus
  | 0, n => .error (.timeout (status n))
  | fuel + 1, n =>
    if (status n).isTerminal then .ok (status n)
    else if timeout < n * interval then .error (.timeout (status n))
    else pollFrom status timeout interval fuel (n + 1)

/-- Run the polling loop from the first status query with enough fuel. -/
def pollJob (status : Nat → JobStatus) (timeout interval : Nat) :
    Except ItemErr JobStatus :=
  pollFrom status timeout interval (timeout / interval + 2) 0

/-- Lines 278-287 of `read`: poll until terminal or timeout, then raise
`RuntimeError` carrying the terminal status when it is not `DONE`. -/
def awaitJob (status : Nat → JobStatus) (timeout interval : Nat) :
    Except ItemErr Unit :=
  match pollJob status timeout interval with
  | .error e => .error e
  | .ok s => if s = .done then .ok () else .error (.jobFailed s)

/-- Calls made against a backend engine, recorded per batch item. -/
inductive BCall (α : Type)
  | gpuMeasure (slot : Int) (shots : Nat)
  | gpuReset (slot : Int)
  | gpuRot (axis : Axis) (slot : Int) (qubit : Nat) (angle : α)
  | transpileCall
  | runCall (ops : List (RotOp α)) (shots : Nat)
  | resultCall
deriving DecidableEq, Repr

/-- Diagnostics printed by `read` (the global print-based diagnostics of
the source). -/
inductive Diag
  | backendUnavailable
  | gpuUnavailable
  | missingBlueprint (slot : Int)
  | toGateFallback (item : Nat)
  | itemError (item : Nat)
deriving DecidableEq, Repr

/-- Whether an `Except` value is a success. -/
def exceptOk {ε β : Type} : Except ε β → Bool
  | .ok _ => true
  | .error _ => false

instance exceptDecEq {ε β : Type} [DecidableEq ε] [DecidableEq β] :
    DecidableEq (Except ε β) := fun a b =>
  match a, b with
  | .ok x, .ok y => decidable_of_iff (x = y) (by simp)
  | .error x, .error y => decidable_of_iff (x = y) (by simp)
  | .ok _, .error _ => isFalse (fun h => by cases h)
  | .error _, .ok _ => isFalse (fun h => by cases h)

/-- Counts-to-output decoding of `read`: build the per-qubit probability
vector and apply `decoding_linear`. -/
def decodeRow {α : Type} [Field α] (cell : Cell α) (counts : Counts)
    (shots : Nat) : List α :=
  cell.decodingLinear.apply (qubitProbs α cell.numQubits counts shots)

/-- The `try` block of `read` (lines 262-290) for one non-GPU item:
transpilation (cpu-qiskit only), submission, polling (qr-cloud only) and
result retrieval; a failure anywhere yields `Except.error ()` (the
caught exception) together with the trace of engine calls attempted. -/
def runPhase {α : Type} [Field α] (cell : Cell α) (env : Env α) (i : Nat)
    (ops : List (RotOp α)) (shots : Nat) :
    Except Unit Counts × List (Nat × BCall α) :=
  match cell.backendMode with
  | .cpuQiskit =>
    if env.transpileOk i then
      if env.runOk i then
        match env.resultCounts i with
        | .ok c =>
          (.ok c, [(i, .transpileCall), (i, .runCall ops shots), (i, .resultCall)])
        | .error _ =>
          (.error (), [(i, .transpileCall), (i, .runCall ops shots), (i, .resultCall)])
      else (.error (), [(i, .transpileCall), (i, .runCall ops shots)])
    else (.error (), [(i, .transpileCall)])
  | .qrCloud =>
    if env.runOk i then
      match awaitJob (env.status i) cell.jobTimeout cell.jobPollInterval with
      | .ok _ =>
        match env.resultCounts i with
        | .ok c => (.ok c, [(i, .runCall ops shots), (i, .resultCall)])
        | .error _ => (.error (), [(i, .runCall ops shots), (i, .resultCall)])
      | .error _ => (.error (), [(i, .runCall ops shots)])
    else (.error (), [(i, .runCall ops shots)])
  | .gpu => (.error (), [])

/-- Exceptions of `read` that are raised outside any `try` block and so
propagate to the caller: the out-of-bounds `ValueError`, an exception of
`measure_shots` in GPU mode (line 232), and an exception of the
operation-rebuild fallback path (lines 254-258, entered when `to_gate`
fails). -/
inductive ReadAbort
  | slotOOB (item : Nat) (slot : Int)
  | gpuMeasureRaised (item : Nat)
  | rebuildRaised (item : Nat)
deriving DecidableEq, Repr

/-- The operation list of the circuit submitted for slot `s`: the ops of
the stored blueprint, or an empty circuit when the slot was never
written. -/
def slotOps {α : Type} (cell : Cell α) (s : Int) : List (RotOp α) :=
  ((cell.quantumMemoryStates.getD s.toNat none).map Blueprint.ops).getD []

/-- The warning printed when the slot holds no blueprint (line 236). -/
def missDiagsOf {α : Type} (cell : Cell α) (s : Int) : List Diag :=
  if (cell.quantumMemoryStates.getD s.toNat none).isNone then [.missingBlueprint s] else []

/-- The warning printed when `to_gate` fails and the rebuild fallback is
entered (line 252). -/
def asmDiagsOf {α : Type} (env : Env α) (i : Nat) : List Diag :=
  if env.toGateOk i then [] else [.toGateFallback i]

/-- One iteration of the batch loop of `read` for item `i` with slot
index `s`: returns the item row (or the propagating exception), the
diagnostics printed, and the engine calls attempted.  A missing
blueprint is replaced by an empty circuit; a failure of both `to_gate`
and the rebuild fallback propagates. -/
def readItem {α : Type} [Field α] (cell : Cell α) (env : Env α)
    (shots : Nat) (i : Nat) (s : Int) :
    Except ReadAbort (List α) × List Diag × List (Nat × BCall α) :=
  if ¬ (0 ≤ s ∧ s < (cell.memoryDepth : Int)) then
    (.error (.slotOOB i s), [], [])
  else if cell.backendMode = .gpu then
    match env.gpuMeasureRes i with
    | .error _ => (.error (.gpuMeasureRaised i), [], [(i, .gpuMeasure s shots)])
    | .ok c => (.ok (decodeRow cell c shots), [], [(i, .gpuMeasure s shots)])
  else if env.toGateOk i = false ∧ env.rebuildOk i = false then
    (.error (.rebuildRaised i), missDiagsOf cell s ++ asmDiagsOf env i, [])
  else
    match runPhase cell env i (slotOps cell s) shots with
    | (.ok c, calls) =>
      (.ok (decodeRow cell c shots), missDiagsOf cell s ++ asmDiagsOf env i, calls)
    | (.error _, calls) =>
      (.ok (randRow env cell.classicalHiddenSize i),
       missDiagsOf cell s ++ asmDiagsOf env i ++ [.itemError i], calls)

/-- Result of a whole `read` call: the returned batch (or the
propagating exception), diagnostics, and engine calls. -/
structure ReadOut (α : Type) where
  result : Except ReadAbort (List (List α))
  diags : List Diag
  calls : List (Nat × BCall α)

/-- The batch loop of `read` over (item index, slot index) pairs. -/
def readGo {α : Type} [Field α] (cell : Cell α) (env : Env α) (shots : Nat) :
    List (Nat × Int) → ReadOut α
  | [] => ⟨.ok [], [], []⟩
  | (i, s) :: rest =>
    match readItem cell env shots i s with
    | (.error a, ds, cs) => ⟨.error a, ds, cs⟩
    | (.ok row, ds, cs) =>
      ⟨(readGo cell env shots rest).result.map (fun rows => row :: rows),
       ds ++ (readGo cell env shots rest).diags,
       cs ++ (readGo cell env shots rest).calls⟩

/-- `QuantumMemoryCell.read`: backend-availability degraded mode first
(a batch of `randn` rows and no engine call), then the per-item loop. -/
def read {α : Type} [Field α] (cell : Cell α) (env : Env α)
    (slotIdxs : List Int) (shots : Nat) : ReadOut α :=
  if cell.backendMode ≠ .gpu ∧ cell.backendPresent = false then
    ⟨.ok ((List.range slotIdxs.length).map (randRow env cell.classicalHiddenSize)),
     [.backendUnavailable], []⟩
  else if cell.backendMode = .gpu ∧ cell.gpuSimulators.isNone then
    ⟨.ok ((List.range slotIdxs.length).map (randRow env cell.classicalHiddenSize)),
     [.gpuUnavailable], []⟩
  else readGo cell env shots slotIdxs.enum

/-- `_get_angles_single` followed by the reshape to `(numQubits, 2)` and
the multiplication by `np.pi` (modelled by `piS`): the two rotation
angles for qubit `q`. -/
def getAnglesSingle {α : Type} [Field α] (cell : Cell α) (piS : α)
    (v : List α) (q : Nat) : α × α :=
  ((cell.encodingLinear.apply v).getD (2 * q) 0 * piS,
   (cell.encodingLinear.apply v).getD (2 * q + 1) 0 * piS)

/-- The fresh circuit built by `write` for batch item `i` and slot `s`
in non-GPU modes: one `ry` and one `rz` per qubit, in qubit-index
order. -/
def mkBlueprint {α : Type} [Field α] (cell : Cell α) (piS : α) (i : Nat)
    (s : Int) (v : List α) : Blueprint α :=
  { name := "qmem_b" ++ toString i ++ "_s" ++ toString s
    numQubits := cell.numQubits
    ops := (List.range cell.numQubits).flatMap (fun q =>
      [⟨Axis.ry, (getAnglesSingle cell piS v q).1, q⟩,
       ⟨Axis.rz, (getAnglesSingle cell piS v q).2, q⟩]) }

/-- Failures of `write`: the batch-length `ValueError` and the per-item
out-of-bounds `ValueError`. -/
inductive WriteErr
  | lenMismatch
  | oob (item : Nat) (slot : Int)
deriving DecidableEq, Repr

/-- Result of a whole `write` call: the updated cell (or the raised
error) and the engine calls made (GPU mode only; non-GPU writes build
circuits locally without touching any backend). -/
structure WriteOut (α : Type) where
  result : Except WriteErr (Cell α)
  calls : List (Nat × BCall α)

/-- Replace the content of slot `k` (the assignment to
`quantum_memory_states[slot_idx]` in `write`). -/
def setSlot {α : Type} (cell : Cell α) (k : Nat) (bp : Option (Blueprint α)) : Cell α :=
  { cell with quantumMemoryStates := cell.quantumMemoryStates.set k bp }

/-- One iteration of the batch loop of `write` for item `i`, vector `v`
and slot `s`: validate, then either mutate the slot simulator (GPU) or
store a fresh blueprint, fully replacing the slot content. -/
def writeItem {α : Type} [Field α] (cell : Cell α) (piS : α) (i : Nat)
    (v : List α) (s : Int) :
    Except WriteErr (Cell α) × List (Nat × BCall α) :=
  if ¬ (0 ≤ s ∧ s < (cell.memoryDepth : Int)) then (.error (.oob i s), [])
  else if cell.backendMode = .gpu then
    (.ok (setSlot cell s.toNat none),
     (i, .gpuReset s) :: (List.range cell.numQubits).flatMap (fun q =>
       [(i, .gpuRot .ry s q (getAnglesSingle cell piS v q).1),
        (i, .gpuRot .rz s q (getAnglesSingle cell piS v q).2)]))
  else
    (.ok (setSlot cell s.toNat (some (mkBlueprint cell piS i s v))), [])

/-- The batch loop of `write`. -/
def writeGo {α : Type} [Field α] (piS : α) :
    Cell α → List (Nat × List α × Int) → WriteOut α
  | cell, [] => ⟨.ok cell, []⟩
  | cell, (i, v, s) :: rest =>
    match writeItem cell piS i v s with
    | (.error e, cs) => ⟨.error e, cs⟩
    | (.ok cell1, cs) =>
      ⟨(writeGo piS cell1 rest).result, cs ++ (writeGo piS cell1 rest).calls⟩

/-- `QuantumMemoryCell.write` with an explicit list of slot indices:
check length agreement, then run the batch loop in order. -/
def write {α : Type} [Field α] (cell : Cell α) (piS : α)
    (vecs : List (List α)) (slotIdxs : List Int) : WriteOut α :=
  if slotIdxs.length ≠ vecs.length then ⟨.error .lenMismatch, []⟩
  else writeGo piS cell ((vecs.zip slotIdxs).enum.map (fun p => (p.1, p.2.1, p.2.2)))

/-- The errors `__init__` can raise: the Qiskit `ImportError`
(line 111), the cuQuantum `RuntimeError` (line 131), the AerSimulator
`ImportError` (line 153), and the unsupported-mode `ValueError`
(line 155). -/
inductive InitErr
  | importQiskit
  | runtimeNoCuQuantum
  | importAer
  | valueUnsupportedMode
deriving DecidableEq, Repr

/-- The backend a constructed cell ends up holding. -/
inductive BackendKind
  | gpuPool
  | qrReal
  | qrDummy
  | aer
deriving DecidableEq, Repr

/-- Construction-time configuration: which optional engines import
successfully, the requested mode string, whether credentials are given
(truthy), and whether QuantumRings provider initialization succeeds. -/
structure Config where
  hasQiskit : Bool
  hasCuQuantum : Bool
  hasQuantumRings : Bool
  backendMode : String
  qrTokenGiven : Bool
  qrUserGiven : Bool
  providerOk : Bool
deriving DecidableEq, Repr

/-- The backend-selection logic of `__init__` (lines 110-155). -/
def initBackend (cfg : Config) : Except InitErr BackendKind :=
  if cfg.hasQiskit = false ∧ cfg.backendMode ≠ "gpu" then .error .importQiskit
  else if cfg.backendMode = "gpu" then
    if cfg.hasCuQuantum then .ok .gpuPool else .error .runtimeNoCuQuantum
  else if cfg.backendMode = "qr-cloud" then
    if cfg.hasQuantumRings ∧ cfg.qrTokenGiven ∧ cfg.qrUserGiven then
      if cfg.providerOk then .ok .qrReal else .ok .qrDummy
    else .ok .qrDummy
  else if cfg.backendMode = "cpu-qiskit" then
    if cfg.hasQiskit then .ok .aer else .error .importAer
  else .error .valueUnsupportedMode

/-- The release loop of `__del__` starting at slot `idx`: returns the
slot indices on which `release()` was invoked and, when some release
raised, the index at which the loop stopped (the exception leaves the
loop, so later simulators are not visited). -/
def delRun : List GpuSim → Nat → List Nat × Option Nat
  | [], _ => ([], none)
  | sim :: rest, idx =>
    if sim.hasRelease then
      if sim.releaseRaises then ([idx], some idx)
      else (idx :: (delRun rest (idx + 1)).1, (delRun rest (idx + 1)).2)
    else delRun rest (idx + 1)

/-- The release loop of `__del__` over the whole simulator list. -/
def delReleases (sims : List GpuSim) : List Nat × Option Nat := delRun sims 0

/-- `QuantumMemoryCell.__del__`: only a truthy `gpu_simulators` list in
GPU mode is visited. -/
def cellDel {α : Type} (cell : Cell α) : List Nat × Option Nat :=
  if cell.backendMode = .gpu ∧ cell.gpuSimulators.getD [] ≠ [] then
    delReleases (cell.gpuSimulators.getD [])
  else ([], none)

/-- The slot indices of the simulators owning a callable `release`
attribute, in order. -/
def hasReleaseIdxs (sims : List GpuSim) : List Nat :=
  (sims.enum.filter (fun p => p.2.hasRelease)).map (fun p => p.1)

/-- Whether every step inside the caught `try` block of `read` succeeds
for item `i`; the steps differ by backend mode. -/
def itemTryOk {α : Type} [Field α] (cell : Cell α) (env : Env α) (i : Nat) : Bool :=
  match cell.backendMode with
  | .cpuQiskit => env.transpileOk i && env.runOk i && exceptOk (env.resultCounts i)
  | .qrCloud =>
    env.runOk i &&
    exceptOk (awaitJob (env.status i) cell.jobTimeout cell.jobPollInterval) &&
    exceptOk (env.resultCounts i)
  | .gpu => false

/-- The normally-decoded row of item `i`, produced whenever its try
block succeeds. -/
def normalRow {α : Type} [Field α] (cell : Cell α) (env : Env α)
    (shots i : Nat) : List α :=
  match env.resultCounts i with
  | .ok c => decodeRow cell c shots
  | .error _ => randRow env cell.classicalHiddenSize i

/-- A small concrete rational-valued cell (1 qubit, depth 2, hidden
size 2) used by concrete instantiations. -/
def cellQ (mode : Mode) : Cell ℚ :=
  { numQubits := 1
    memoryDepth := 2
    classicalHiddenSize := 2
    backendMode := mode
    jobPollInterval := 1
    jobTimeout := 3
    encodingLinear := ⟨[[1, 0], [0, 1]], [0, 0]⟩
    decodingLinear := ⟨[[1], [2]], [0, 1]⟩
    quantumMemoryStates := [none, none]
    gpuSimulators := if mode = Mode.gpu then some [⟨true, false⟩, ⟨true, false⟩] else none
    backendPresent := true }

/-- A benign concrete environment in which every engine call succeeds. -/
def envOkQ : Env ℚ :=
  { gpuMeasureRes := fun _ => .ok [([true], 1)]
    toGateOk := fun _ => true
    rebuildOk := fun _ => true
    transpileOk := fun _ => true
    runOk := fun _ => true
    status := fun _ _ => .done
    resultCounts := fun _ => .ok [([true], 1)]
    randn := fun _ _ => 0 }

end QMC

/-- Claim C2 (counterexample): with `numQubits = 2`, `shots = 100` and the
counts table `{"00": 50, "01": 30, "10": 20}`, the probability `read`
assigns to qubit 0 is not `0.5` as the claim states: qubit 0 is the
rightmost character, so only the bitstring `01` (count 30) contributes. -/
theorem c2_counterexample :
    ¬ QMC.qubitProb ℚ 2 QMC.countsC2 100 0 = 1 / 2 := by
  have h0 : QMC.prob1Count 2 QMC.countsC2 0 = 30 := by decide
  unfold QMC.qubitProb
  rw [if_neg (by decide), if_pos (by decide), h0]
  norm_num

/-- Claim C2 (amended): with `numQubits = 2`, `shots = 100` and the counts
table `{"00": 50, "01": 30, "10": 20}`, the probability computation of
`read` — bit `q` read from the rightmost end of the bitstring — assigns
qubit 0 the probability `30 / 100 = 0.3` and qubit 1 the probability
`20 / 100 = 0.2`. -/
theorem c2_amended :
    QMC.qubitProb ℚ 2 QMC.countsC2 100 0 = 3 / 10 ∧
    QMC.qubitProb ℚ 2 QMC.countsC2 100 1 = 1 / 5 := by
  have h0 : QMC.prob1Count 2 QMC.countsC2 0 = 30 := by decide
  have h1 : QMC.prob1Count 2 QMC.countsC2 1 = 20 := by decide
  constructor
  · unfold QMC.qubitProb
    rw [if_neg (by decide), if_pos (by decide), h0]
    norm_num
  · unfold QMC.qubitProb
    rw [if_neg (by decide), if_pos (by decide), h1]
    norm_num

/-- Claim C8: with `shots = 0`, every per-qubit probability computed by
`read` equals `0` — for any counts input — so the probability vector
handed to the decoder is all zeros. -/
theorem c8_zero_shots (α : Type) [Field α] (numQubits : Nat) (counts : QMC.Counts) :
    QMC.qubitProbs α numQubits counts 0 = List.replicate numQubits 0 ∧
    ∀ q, QMC.qubitProb α numQubits counts 0 q = 0 := by
  have hq : ∀ q, QMC.qubitProb α numQubits counts 0 q = 0 := by
    intro q
    unfold QMC.qubitProb
    by_cases h : counts = [] <;> simp [h]
  refine ⟨?_, hq⟩
  unfold QMC.qubitProbs
  rw [List.eq_replicate_iff]
  refine ⟨by simp, ?_⟩
  intro b hb
  rcases List.mem_map.mp hb with ⟨q, _, rfl⟩
  exact hq q


open QMC

theorem linearApply_length {α : Type} [Field α] (l : Linear α) (x : List α) :
    (l.apply x).length = min l.weight.length l.bias.length := by
  simp [Linear.apply]

theorem decodeRow_length {α : Type} [Field α] (cell : Cell α) (c : Counts) (shots : Nat)
    (hW : cell.decodingLinear.weight.length = cell.classicalHiddenSize)
    (hB : cell.decodingLinear.bias.length = cell.classicalHiddenSize) :
    (decodeRow cell c shots).length = cell.classicalHiddenSize := by
  simp [decodeRow, Linear.apply, hW, hB]

theorem randRow_length {α : Type} (env : Env α) (h i : Nat) :
    (randRow env h i).length = h := by
  simp [randRow]

theorem readItem_ok_length {α : Type} [Field α] (cell : Cell α) (env : Env α)
    (shots i : Nat) (s : Int) (row : List α)
    (hW : cell.decodingLinear.weight.length = cell.classicalHiddenSize)
    (hB : cell.decodingLinear.bias.length = cell.classicalHiddenSize)
    (h : (readItem cell env shots i s).1 = .ok row) :
    row.length = cell.classicalHiddenSize := by
  unfold readItem at h
  repeat' split at h
  all_goals simp at h
  all_goals
    rw [← h]
    first
      | exact decodeRow_length cell _ shots hW hB
      | exact randRow_length env _ i

theorem readGo_ok_shape {α : Type} [Field α] (cell : Cell α) (env : Env α) (shots : Nat)
    (hW : cell.decodingLinear.weight.length = cell.classicalHiddenSize)
    (hB : cell.decodingLinear.bias.length = cell.classicalHiddenSize) :
    ∀ (l : List (Nat × Int)) (outs : List (List α)),
      (readGo cell env shots l).result = .ok outs →
      outs.length = l.length ∧ ∀ row ∈ outs, row.length = cell.classicalHiddenSize := by
  intro l
  induction l with
  | nil =>
    intro outs h
    simp [readGo] at h
    subst h
    simp
  | cons p rest ih =>
    intro outs h
    obtain ⟨i, s⟩ := p
    rw [readGo] at h
    split at h
    · simp at h
    · rename_i row ds cs heq
      simp only [Except.map] at h
      rcases hrest : (readGo cell env shots rest).result with e | l2 <;>
        rw [hrest] at h <;> simp [Except.map] at h
      obtain ⟨hlen2, hall⟩ := ih l2 hrest
      have hrow : row.length = cell.classicalHiddenSize :=
        readItem_ok_length cell env shots i s row hW hB (by rw [heq])
      subst h
      refine ⟨by simp [hlen2], ?_⟩
      intro r hr
      rcases List.mem_cons.mp hr with rfl | hr2
      · exact hrow
      · exact hall r hr2

/-- Claim C7: every batch returned by `read` has one row per input slot
index and every row — decoded, per-item fallback, or whole-batch
degraded fallback — has length `classical_hidden_size`; moreover `read`
of an empty batch returns an empty result and makes no backend call. -/
theorem c7_output_shape {α : Type} [Field α] (cell : Cell α) (env : Env α)
    (slotIdxs : List Int) (shots : Nat) (outs : List (List α))
    (hW : cell.decodingLinear.weight.length = cell.classicalHiddenSize)
    (hB : cell.decodingLinear.bias.length = cell.classicalHiddenSize)
    (hres : (QMC.read cell env slotIdxs shots).result = .ok outs) :
    outs.length = slotIdxs.length ∧
    (∀ row ∈ outs, row.length = cell.classicalHiddenSize) ∧
    (QMC.read cell env [] shots).result = .ok [] ∧
    (QMC.read cell env [] shots).calls = [] := by
  have hempty : (QMC.read cell env [] shots).result = .ok ([] : List (List α)) ∧
      (QMC.read cell env [] shots).calls = [] := by
    unfold QMC.read
    split
    · simp
    · split
      · simp
      · exact ⟨rfl, rfl⟩
  have hmain : outs.length = slotIdxs.length ∧
      ∀ row ∈ outs, row.length = cell.classicalHiddenSize := by
    unfold QMC.read at hres
    split at hres
    · simp at hres
      subst hres
      refine ⟨by simp, ?_⟩
      intro row hrow
      rcases List.mem_map.mp hrow with ⟨j, _, rfl⟩
      exact randRow_length env _ j
    · split at hres
      · simp at hres
        subst hres
        refine ⟨by simp, ?_⟩
        intro row hrow
        rcases List.mem_map.mp hrow with ⟨j, _, rfl⟩
        exact randRow_length env _ j
      · have h2 := readGo_ok_shape cell env shots hW hB slotIdxs.enum outs hres
        exact ⟨by rw [h2.1]; simp [List.enum_length], h2.2⟩
  exact ⟨hmain.1, hmain.2, hempty.1, hempty.2⟩

/-- Witness for claim C7 at a concrete cell (degraded: backend handle
absent), environment and batch. -/
theorem c7_output_shape_witness :
    [[(0 : ℚ), 0]].length = [(0 : Int)].length ∧
    (∀ row ∈ [[(0 : ℚ), 0]],
      row.length = { cellQ Mode.cpuQiskit with
        backendPresent := false }.classicalHiddenSize) ∧
    (QMC.read { cellQ Mode.cpuQiskit with backendPresent := false }
      envOkQ [] 2).result = .ok [] ∧
    (QMC.read { cellQ Mode.cpuQiskit with backendPresent := false }
      envOkQ [] 2).calls = [] :=
  c7_output_shape { cellQ Mode.cpuQiskit with backendPresent := false }
    envOkQ [(0 : Int)] 2 [[(0 : ℚ), 0]] (by decide) (by decide) (by rfl)

theorem pollFrom_never_terminal (status : Nat → JobStatus) (timeout interval : Nat)
    (hterm : ∀ k, (status k).isTerminal = false) :
    ∀ fuel n, ∃ st, pollFrom status timeout interval fuel n = .error (.timeout st) := by
  intro fuel
  induction fuel with
  | zero => intro n; exact ⟨status n, rfl⟩
  | succ fuel ih =>
    intro n
    rw [pollFrom]
    simp only [hterm n, Bool.false_eq_true, if_false]
    split
    · exact ⟨status n, rfl⟩
    · exact ih (n + 1)

theorem awaitJob_timeout_of_never (status : Nat → JobStatus) (timeout interval : Nat)
    (hterm : ∀ k, (status k).isTerminal = false) :
    ∃ st, awaitJob status timeout interval = .error (.timeout st) := by
  obtain ⟨st, h⟩ := pollFrom_never_terminal status timeout interval hterm
    (timeout / interval + 2) 0
  exact ⟨st, by simp [awaitJob, pollJob, h]⟩

theorem pollFrom_reach (status : Nat → JobStatus) (timeout interval : Nat) (m : Nat)
    (hm : (status m).isTerminal = true)
    (hbefore : ∀ j, j < m → (status j).isTerminal = false ∧ ¬ timeout < j * interval) :
    ∀ fuel n, n ≤ m → m - n < fuel →
      pollFrom status timeout interval fuel n = .ok (status m) := by
  intro fuel
  induction fuel with
  | zero => intro n _ h; omega
  | succ fuel ih =>
    intro n hn hf
    rw [pollFrom]
    by_cases hnm : n = m
    · subst hnm; simp [hm]
    · have hlt : n < m := lt_of_le_of_ne hn hnm
      have hb := hbefore n hlt
      simp only [hb.1, Bool.false_eq_true, if_false, hb.2]
      exact ih (n + 1) (by omega) (by omega)

theorem awaitJob_failed (status : Nat → JobStatus) (timeout interval : Nat) (m : Nat)
    (hint : 0 < interval)
    (hm : (status m).isTerminal = true)
    (hne : status m ≠ .done)
    (hbefore : ∀ j, j < m → (status j).isTerminal = false ∧ ¬ timeout < j * interval) :
    awaitJob status timeout interval = .error (.jobFailed (status m)) := by
  have hfuel : m - 0 < timeout / interval + 2 := by
    rcases Nat.eq_zero_or_pos m with rfl | hpos
    · rw [Nat.sub_zero]
      exact Nat.lt_of_lt_of_le Nat.zero_lt_two (Nat.le_add_left 2 _)
    · have h1 : (m - 1) * interval ≤ timeout :=
        Nat.not_lt.mp (hbefore (m - 1) (by omega)).2
      have h2 : m - 1 ≤ timeout / interval :=
        (Nat.le_div_iff_mul_le hint).mpr h1
      have h3 : m ≤ timeout / interval + 1 := by
        rw [← Nat.sub_add_cancel hpos]
        exact Nat.add_le_add_right h2 1
      rw [Nat.sub_zero]
      exact Nat.lt_succ_of_le h3
  have h := pollFrom_reach status timeout interval m hm hbefore
    (timeout / interval + 2) 0 (Nat.zero_le m) hfuel
  simp [awaitJob, pollJob, h, hne]

theorem read_eq_go {α : Type} [Field α] (cell : Cell α) (env : Env α)
    (l : List Int) (shots : Nat)
    (hpres : (cell.backendMode = Mode.gpu → cell.gpuSimulators.isSome = true) ∧
             (cell.backendMode ≠ Mode.gpu → cell.backendPresent = true)) :
    QMC.read cell env l shots = readGo cell env shots l.enum := by
  unfold QMC.read
  rw [if_neg, if_neg]
  · rintro ⟨h1, h2⟩
    have := hpres.1 h1
    simp [Option.isNone_iff_eq_none] at h2
    simp [h2] at this
  · rintro ⟨h1, h2⟩
    rw [hpres.2 h1] at h2
    cases h2

theorem readItem_qr_fallback {α : Type} [Field α] (cell : Cell α) (env : Env α)
    (shots i : Nat) (s : Int) (e : ItemErr)
    (hmode : cell.backendMode = Mode.qrCloud)
    (hs0 : 0 ≤ s) (hs1 : s < (cell.memoryDepth : Int))
    (hgate : env.toGateOk i = true)
    (hrun : env.runOk i = true)
    (hawait : awaitJob (env.status i) cell.jobTimeout cell.jobPollInterval = .error e) :
    readItem cell env shots i s =
      (.ok (randRow env cell.classicalHiddenSize i),
       missDiagsOf cell s ++ [Diag.itemError i],
       [(i, BCall.runCall (slotOps cell s) shots)]) := by
  unfold readItem runPhase
  rw [hmode]
  simp [hs0, hs1, hgate, hrun, hawait, asmDiagsOf]

/-- Claim C5: in qr-cloud mode `read` polls `job.status()` until a
terminal status; when no terminal status is ever reported the item fails
with the timeout error (carrying the last status), when the terminal
status is not `DONE` (reached in time) it fails with the job-failure
error carrying that status; the two errors are distinct constructors,
and in either case the item resolves through the per-item fallback path
(a `randn` row and an error diagnostic) instead of hanging or
propagating. -/
theorem c5_polling {α : Type} [Field α] (cell : Cell α) (env : Env α)
    (s : Int) (shots : Nat)
    (hmode : cell.backendMode = Mode.qrCloud)
    (hpres : cell.backendPresent = true)
    (hint : 0 < cell.jobPollInterval)
    (hs0 : 0 ≤ s) (hs1 : s < (cell.memoryDepth : Int))
    (hgate : env.toGateOk 0 = true)
    (hrun : env.runOk 0 = true) :
    ((∀ k, (env.status 0 k).isTerminal = false) →
      (∃ st, awaitJob (env.status 0) cell.jobTimeout cell.jobPollInterval
          = .error (.timeout st)) ∧
      (QMC.read cell env [s] shots).result
          = .ok [randRow env cell.classicalHiddenSize 0] ∧
      Diag.itemError 0 ∈ (QMC.read cell env [s] shots).diags) ∧
    (∀ m, (∀ j, j < m → (env.status 0 j).isTerminal = false ∧
            ¬ cell.jobTimeout < j * cell.jobPollInterval) →
      (env.status 0 m).isTerminal = true → env.status 0 m ≠ .done →
      awaitJob (env.status 0) cell.jobTimeout cell.jobPollInterval
          = .error (.jobFailed (env.status 0 m)) ∧
      (QMC.read cell env [s] shots).result
          = .ok [randRow env cell.classicalHiddenSize 0] ∧
      Diag.itemError 0 ∈ (QMC.read cell env [s] shots).diags) ∧
    (∀ st1 st2, ItemErr.timeout st1 ≠ ItemErr.jobFailed st2) := by
  have hpres2 : (cell.backendMode = Mode.gpu → cell.gpuSimulators.isSome = true) ∧
      (cell.backendMode ≠ Mode.gpu → cell.backendPresent = true) := by
    refine ⟨?_, fun _ => hpres⟩
    intro h
    rw [hmode] at h
    cases h
  have hcommon : ∀ e : ItemErr,
      awaitJob (env.status 0) cell.jobTimeout cell.jobPollInterval = .error e →
      (QMC.read cell env [s] shots).result
          = .ok [randRow env cell.classicalHiddenSize 0] ∧
      Diag.itemError 0 ∈ (QMC.read cell env [s] shots).diags := by
    intro e he
    rw [read_eq_go cell env [s] shots hpres2]
    have henum : ([s] : List Int).enum = [(0, s)] := rfl
    rw [henum, readGo,
      readItem_qr_fallback cell env shots 0 s e hmode hs0 hs1 hgate hrun he]
    constructor
    · simp [readGo, Except.map]
    · simp [readGo]
  refine ⟨?_, ?_, ?_⟩
  · intro hterm
    obtain ⟨st, hst⟩ := awaitJob_timeout_of_never (env.status 0) cell.jobTimeout
      cell.jobPollInterval hterm
    exact ⟨⟨st, hst⟩, hcommon _ hst⟩
  · intro m hbefore hm hne
    have hst := awaitJob_failed (env.status 0) cell.jobTimeout cell.jobPollInterval
      m hint hm hne hbefore
    exact ⟨hst, hcommon _ hst⟩
  · intro st1 st2 h
    cases h

/-- Witness for claim C5: a concrete qr-cloud cell with a backend whose
job status never leaves `RUNNING`. -/
theorem c5_polling_witness :
    (∃ st, awaitJob (({ envOkQ with status := fun _ _ => JobStatus.running } : Env ℚ).status 0)
        (cellQ Mode.qrCloud).jobTimeout (cellQ Mode.qrCloud).jobPollInterval
        = .error (.timeout st)) ∧
    (QMC.read (cellQ Mode.qrCloud)
        { envOkQ with status := fun _ _ => JobStatus.running } [(0 : Int)] 7).result
      = .ok [randRow { envOkQ with status := fun _ _ => JobStatus.running }
          (cellQ Mode.qrCloud).classicalHiddenSize 0] ∧
    Diag.itemError 0 ∈ (QMC.read (cellQ Mode.qrCloud)
        { envOkQ with status := fun _ _ => JobStatus.running } [(0 : Int)] 7).diags ∧
    (∀ st1 st2, ItemErr.timeout st1 ≠ ItemErr.jobFailed st2) := by
  have h := c5_polling (cellQ Mode.qrCloud)
    { envOkQ with status := fun _ _ => JobStatus.running } 0 7
    (by decide) (by decide) (by decide) (by decide) (by decide) rfl rfl
  have h1 := h.1 (fun k => rfl)
  exact ⟨h1.1, h1.2.1, h1.2.2, h.2.2⟩

theorem runPhase_fst {α : Type} [Field α] (cell : Cell α) (env : Env α)
    (i : Nat) (ops : List (RotOp α)) (shots : Nat)
    (hmode : cell.backendMode ≠ Mode.gpu) :
    (runPhase cell env i ops shots).1 =
      if itemTryOk cell env i then env.resultCounts i else .error () := by
  unfold runPhase itemTryOk
  cases hmode2 : cell.backendMode
  · exact absurd hmode2 hmode
  · cases hrun : env.runOk i
    · simp [exceptOk]
    · rcases hawait : awaitJob (env.status i) cell.jobTimeout cell.jobPollInterval with e | u
      · simp [hawait, exceptOk]
      · rcases hres : env.resultCounts i with e | c <;> simp [hawait, hres, exceptOk]
  · cases htrans : env.transpileOk i
    · simp [exceptOk]
    · cases hrun : env.runOk i
      · simp [exceptOk]
      · rcases hres : env.resultCounts i with e | c <;> simp [hres, exceptOk]

theorem readItem_fst_nonGpu {α : Type} [Field α] (cell : Cell α) (env : Env α)
    (shots i : Nat) (s : Int)
    (hmode : cell.backendMode ≠ Mode.gpu)
    (hs : 0 ≤ s ∧ s < (cell.memoryDepth : Int))
    (hasm : env.toGateOk i = true ∨ env.rebuildOk i = true) :
    (readItem cell env shots i s).1 =
      .ok (if itemTryOk cell env i then normalRow cell env shots i
           else randRow env cell.classicalHiddenSize i) := by
  unfold readItem
  rw [if_neg (not_not_intro hs), if_neg hmode, if_neg ?hasm2]
  case hasm2 =>
    rintro ⟨h1, h2⟩
    rcases hasm with h | h
    · rw [h] at h1; cases h1
    · rw [h] at h2; cases h2
  rcases hrp : runPhase cell env i (slotOps cell s) shots with ⟨r, calls⟩
  have hr : r = if itemTryOk cell env i then env.resultCounts i else .error () := by
    rw [← runPhase_fst cell env i (slotOps cell s) shots hmode, hrp]
  by_cases hT : itemTryOk cell env i = true
  · simp only [hT, if_true] at hr
    simp only [hT, if_true]
    cases r with
    | ok c =>
      simp [normalRow, ← hr]
    | error u =>
      simp [normalRow, ← hr]
  · rw [Bool.not_eq_true] at hT
    simp only [hT, Bool.false_eq_true, if_false] at hr
    simp only [hT, Bool.false_eq_true, if_false]
    cases r with
    | ok c => simp at hr
    | error u => simp

theorem readItem_ok_decoded {α : Type} [Field α] (cell : Cell α) (env : Env α)
    (shots i : Nat) (s : Int) (c : Counts)
    (hmode : cell.backendMode ≠ Mode.gpu)
    (hs0 : 0 ≤ s) (hs1 : s < (cell.memoryDepth : Int))
    (hgate : env.toGateOk i = true)
    (htrans : env.transpileOk i = true)
    (hrun : env.runOk i = true)
    (hawait : cell.backendMode = Mode.qrCloud →
      awaitJob (env.status i) cell.jobTimeout cell.jobPollInterval = .ok ())
    (hres : env.resultCounts i = .ok c) :
    readItem cell env shots i s =
      (.ok (decodeRow cell c shots), missDiagsOf cell s,
       (if cell.backendMode = Mode.cpuQiskit then [(i, BCall.transpileCall)] else []) ++
         [(i, BCall.runCall (slotOps cell s) shots), (i, BCall.resultCall)]) := by
  unfold readItem runPhase
  cases hmode2 : cell.backendMode
  · exact absurd hmode2 hmode
  · simp [hs0, hs1, hgate, hrun, hawait hmode2, hres, asmDiagsOf]
  · simp [hs0, hs1, hgate, htrans, hrun, hres, asmDiagsOf]

/-- Claim C10: in a non-GPU mode, reading a valid slot that was never
written does not raise and does not take the random-fallback path: the
missing blueprint is replaced by an empty circuit (no rotations), a
warning diagnostic is printed, and the returned row is the decoded
result of measuring that empty circuit. -/
theorem c10_unwritten_slot {α : Type} [Field α] (cell : Cell α) (env : Env α)
    (s : Int) (shots : Nat) (c : Counts)
    (hmode : cell.backendMode ≠ Mode.gpu)
    (hpres : cell.backendPresent = true)
    (hs0 : 0 ≤ s) (hs1 : s < (cell.memoryDepth : Int))
    (hslot : cell.quantumMemoryStates.getD s.toNat none = none)
    (hgate : env.toGateOk 0 = true)
    (htrans : env.transpileOk 0 = true)
    (hrun : env.runOk 0 = true)
    (hawait : cell.backendMode = Mode.qrCloud →
      awaitJob (env.status 0) cell.jobTimeout cell.jobPollInterval = .ok ())
    (hres : env.resultCounts 0 = .ok c) :
    (QMC.read cell env [s] shots).result = .ok [decodeRow cell c shots] ∧
    Diag.missingBlueprint s ∈ (QMC.read cell env [s] shots).diags ∧
    Diag.itemError 0 ∉ (QMC.read cell env [s] shots).diags ∧
    (0, BCall.runCall ([] : List (RotOp α)) shots) ∈ (QMC.read cell env [s] shots).calls := by
  have hops : slotOps cell s = ([] : List (RotOp α)) := by
    unfold slotOps; rw [hslot]; rfl
  have hmd : missDiagsOf cell s = [Diag.missingBlueprint s] := by
    unfold missDiagsOf; rw [hslot]; rfl
  rw [read_eq_go cell env [s] shots ⟨fun h => absurd h hmode, fun _ => hpres⟩]
  have henum : ([s] : List Int).enum = [(0, s)] := rfl
  rw [henum, readGo,
    readItem_ok_decoded cell env shots 0 s c hmode hs0 hs1 hgate htrans hrun hawait hres,
    hops, hmd]
  refine ⟨by simp [readGo, Except.map], by simp [readGo], by simp [readGo], ?_⟩
  simp [readGo]

/-- Witness for claim C10: a concrete qr-cloud cell whose slot 0 was
never written, with a benign backend. -/
theorem c10_unwritten_slot_witness :
    (QMC.read (cellQ Mode.qrCloud) envOkQ [(0 : Int)] 5).result
      = .ok [decodeRow (cellQ Mode.qrCloud) [([true], 1)] 5] ∧
    Diag.missingBlueprint 0 ∈ (QMC.read (cellQ Mode.qrCloud) envOkQ [(0 : Int)] 5).diags ∧
    Diag.itemError 0 ∉ (QMC.read (cellQ Mode.qrCloud) envOkQ [(0 : Int)] 5).diags ∧
    (0, BCall.runCall ([] : List (RotOp ℚ)) 5)
      ∈ (QMC.read (cellQ Mode.qrCloud) envOkQ [(0 : Int)] 5).calls :=
  c10_unwritten_slot (cellQ Mode.qrCloud) envOkQ 0 5 [([true], 1)]
    (by decide) rfl (by decide) (by decide) (by decide) rfl rfl rfl
    (fun _ => rfl) rfl

theorem snd_mem_of_mem_enumFrom {β : Type} :
    ∀ (l : List β) (n : Nat) (p : Nat × β), p ∈ l.enumFrom n → p.2 ∈ l := by
  intro l
  induction l with
  | nil => intro n p h; cases h
  | cons a rest ih =>
    intro n p h
    rw [List.enumFrom] at h
    rcases List.mem_cons.mp h with rfl | h2
    · exact List.mem_cons_self _ _
    · exact List.mem_cons_of_mem _ (ih (n + 1) p h2)

theorem snd_mem_of_mem_enum {β : Type} (l : List β) (p : Nat × β)
    (h : p ∈ l.enum) : p.2 ∈ l :=
  snd_mem_of_mem_enumFrom l 0 p h

theorem readGo_ok_of_valid {α : Type} [Field α] (cell : Cell α) (env : Env α) (shots : Nat)
    (hmode : cell.backendMode ≠ Mode.gpu)
    (hasm : ∀ j, env.toGateOk j = true ∨ env.rebuildOk j = true) :
    ∀ (l : List (Nat × Int)),
      (∀ p ∈ l, 0 ≤ p.2 ∧ p.2 < (cell.memoryDepth : Int)) →
      (readGo cell env shots l).result =
        .ok (l.map (fun p =>
          if itemTryOk cell env p.1 then normalRow cell env shots p.1
          else randRow env cell.classicalHiddenSize p.1)) := by
  intro l
  induction l with
  | nil => intro _; simp [readGo]
  | cons p rest ih =>
    intro hval
    obtain ⟨i, s⟩ := p
    rw [readGo]
    rcases hri : readItem cell env shots i s with ⟨r, ds, cs⟩
    have hr1 := readItem_fst_nonGpu cell env shots i s hmode
      (hval (i, s) (List.mem_cons_self _ _)) (hasm i)
    rw [hri] at hr1
    simp only at hr1
    subst hr1
    have hrest := ih (fun q hq => hval q (List.mem_cons_of_mem _ hq))
    simp [hrest, Except.map]

/-- Claim C1 (amended): in the non-GPU modes, provided the uncaught
steps cannot raise (the blueprint-to-gate conversion succeeds or its
rebuild fallback does, for every item), `read` never propagates an
exception: it returns one row per item, where an item whose caught try
block (transpilation, submission, polling, result retrieval) succeeds
gets its normally-decoded row and an item whose try block fails gets its
own random fallback row, independently of all other items. -/
theorem c1_item_isolation {α : Type} [Field α] (cell : Cell α) (env : Env α)
    (shots : Nat) (slotIdxs : List Int)
    (hmode : cell.backendMode ≠ Mode.gpu)
    (hpres : cell.backendPresent = true)
    (hval : ∀ s ∈ slotIdxs, 0 ≤ s ∧ s < (cell.memoryDepth : Int))
    (hasm : ∀ j, env.toGateOk j = true ∨ env.rebuildOk j = true) :
    (QMC.read cell env slotIdxs shots).result =
      .ok (slotIdxs.enum.map (fun p =>
        if itemTryOk cell env p.1 then normalRow cell env shots p.1
        else randRow env cell.classicalHiddenSize p.1)) := by
  rw [read_eq_go cell env slotIdxs shots ⟨fun h => absurd h hmode, fun _ => hpres⟩]
  exact readGo_ok_of_valid cell env shots hmode hasm slotIdxs.enum
    (fun p hp => hval p.2 (snd_mem_of_mem_enum slotIdxs p hp))

/-- Counterexample to claim C1 as stated: in GPU mode an exception of
`measure_shots` (line 232) is raised outside the `try` block, so it
propagates to the caller and aborts the whole 2-item batch instead of
replacing only that item's output. -/
theorem c1_counterexample :
    (QMC.read (cellQ Mode.gpu)
        { envOkQ with gpuMeasureRes := fun _ => .error () } [0, 1] 5).result
      = .error (ReadAbort.gpuMeasureRaised 0) := rfl

/-- Witness for the amended claim C1: a 3-item batch in which only item
1's submission fails; items 0 and 2 decode normally and item 1 falls
back. -/
theorem c1_item_isolation_witness :
    (QMC.read (cellQ Mode.cpuQiskit) { envOkQ with runOk := fun j => decide (j ≠ 1) }
        [0, 1, 0] 5).result =
      .ok (([0, 1, 0] : List Int).enum.map (fun p =>
        if itemTryOk (cellQ Mode.cpuQiskit)
            { envOkQ with runOk := fun j => decide (j ≠ 1) } p.1
        then normalRow (cellQ Mode.cpuQiskit)
            { envOkQ with runOk := fun j => decide (j ≠ 1) } 5 p.1
        else randRow { envOkQ with runOk := fun j => decide (j ≠ 1) }
            (cellQ Mode.cpuQiskit).classicalHiddenSize p.1)) :=
  c1_item_isolation (cellQ Mode.cpuQiskit)
    { envOkQ with runOk := fun j => decide (j ≠ 1) } 5 [0, 1, 0]
    (by decide) rfl (by decide) (fun j => Or.inl rfl)

/-- Counterexample to claim C3 as stated: with Qiskit importable but
QuantumRingsLib absent, constructing in qr-cloud mode does not raise —
the cell is silently built around the dummy `BackendV2` stand-in
(lines 144-146). -/
theorem c3_counterexample :
    initBackend ⟨true, false, false, "qr-cloud", true, true, true⟩
      = .ok BackendKind.qrDummy := by decide

/-- Claim C3 (amended): an unsupported backend_mode raises `ValueError`;
gpu mode without cuQuantum raises `RuntimeError`; a non-gpu mode without
Qiskit raises `ImportError`; gpu with cuQuantum and cpu-qiskit with
Qiskit construct their real backends — but qr-cloud with
QuantumRingsLib missing, credentials missing, or provider
initialization failing does not raise: it silently substitutes the
dummy `BackendV2` stand-in. -/
theorem c3_construction (cfg : Config) :
    (cfg.hasQiskit = false → cfg.backendMode ≠ "gpu" →
      initBackend cfg = .error InitErr.importQiskit) ∧
    (cfg.backendMode = "gpu" → cfg.hasCuQuantum = false →
      initBackend cfg = .error InitErr.runtimeNoCuQuantum) ∧
    (cfg.backendMode = "gpu" → cfg.hasCuQuantum = true →
      initBackend cfg = .ok BackendKind.gpuPool) ∧
    (cfg.hasQiskit = true → cfg.backendMode ≠ "gpu" → cfg.backendMode ≠ "qr-cloud" →
      cfg.backendMode ≠ "cpu-qiskit" →
      initBackend cfg = .error InitErr.valueUnsupportedMode) ∧
    (cfg.hasQiskit = true → cfg.backendMode = "cpu-qiskit" →
      initBackend cfg = .ok BackendKind.aer) ∧
    (cfg.hasQiskit = true → cfg.backendMode = "qr-cloud" →
      (cfg.hasQuantumRings = false ∨ cfg.qrTokenGiven = false ∨ cfg.qrUserGiven = false) →
      initBackend cfg = .ok BackendKind.qrDummy) ∧
    (cfg.hasQiskit = true → cfg.backendMode = "qr-cloud" → cfg.hasQuantumRings = true →
      cfg.qrTokenGiven = true → cfg.qrUserGiven = true → cfg.providerOk = false →
      initBackend cfg = .ok BackendKind.qrDummy) := by
  refine ⟨?_, ?_, ?_, ?_, ?_, ?_, ?_⟩
  · intro h1 h2
    unfold initBackend
    rw [if_pos ⟨h1, h2⟩]
  · intro h1 h2
    unfold initBackend
    rw [if_neg (fun hc => hc.2 h1), if_pos h1, h2]
    simp
  · intro h1 h2
    unfold initBackend
    rw [if_neg (fun hc => hc.2 h1), if_pos h1, h2]
    simp
  · intro h1 h2 h3 h4
    unfold initBackend
    rw [if_neg (fun hc => by simp [h1] at hc), if_neg h2, if_neg h3, if_neg h4]
  · intro h1 h2
    unfold initBackend
    rw [if_neg (fun hc => by simp [h1] at hc), if_neg (by rw [h2]; decide),
      if_neg (by rw [h2]; decide), if_pos h2, h1]
    simp
  · intro h1 h2 h3
    unfold initBackend
    rw [if_neg (fun hc => by simp [h1] at hc), if_neg (by rw [h2]; decide), if_pos h2,
      if_neg (fun hcon => by rcases h3 with h | h | h <;> simp [h] at hcon)]
  · intro h1 h2 h3 h4 h5 h6
    unfold initBackend
    rw [if_neg (fun hc => by simp [h1] at hc), if_neg (by rw [h2]; decide), if_pos h2,
      if_pos ⟨h3, h4, h5⟩, h6]
    simp

/-- Witness for the amended claim C3: an unrecognized mode string raises
the unsupported-mode error, and qr-cloud without QuantumRingsLib
constructs with the dummy backend. -/
theorem c3_construction_witness :
    initBackend ⟨true, true, true, "local", true, true, true⟩
      = .error InitErr.valueUnsupportedMode ∧
    initBackend ⟨true, true, false, "qr-cloud", true, true, true⟩
      = .ok BackendKind.qrDummy := by
  constructor
  · exact (c3_construction _).2.2.2.1 rfl (by decide) (by decide) (by decide)
  · exact (c3_construction _).2.2.2.2.2.1 rfl rfl (Or.inl rfl)

/-- Counterexample to claim C9 as stated: in a 2-simulator pool where
the first `release()` raises and the second would succeed, the loop of
`__del__` stops at the first failure (there is no per-simulator
exception suppression), so simulator 1 is never released. -/
theorem c9_counterexample :
    delReleases [⟨true, true⟩, ⟨true, false⟩] = ([0], some 0) ∧
    1 ∉ (delReleases [⟨true, true⟩, ⟨true, false⟩]).1 := by
  constructor
  · rfl
  · decide

theorem delRun_no_raise :
    ∀ (sims : List GpuSim) (n : Nat), (∀ sim ∈ sims, sim.releaseRaises = false) →
      delRun sims n =
        (((sims.enumFrom n).filter (fun p => p.2.hasRelease)).map (fun p => p.1), none) := by
  intro sims
  induction sims with
  | nil => intro n _; rfl
  | cons sim rest ih =>
    intro n hok
    have h1 : sim.releaseRaises = false := hok sim (List.mem_cons_self _ _)
    have ih2 := ih (n + 1) (fun q hq => hok q (List.mem_cons_of_mem _ hq))
    rw [delRun, List.enumFrom]
    by_cases hr : sim.hasRelease = true
    · simp [hr, h1, ih2, List.filter_cons]
    · simp [hr, ih2, List.filter_cons]

theorem delRun_snd_ge :
    ∀ (sims : List GpuSim) (n k : Nat), (delRun sims n).2 = some k → n ≤ k := by
  intro sims
  induction sims with
  | nil => intro n k h; simp [delRun] at h
  | cons sim rest ih =>
    intro n k h
    rw [delRun] at h
    by_cases hr : sim.hasRelease = true
    · rw [if_pos hr] at h
      by_cases hrr : sim.releaseRaises = true
      · rw [if_pos hrr] at h
        simp at h
        omega
      · rw [if_neg hrr] at h
        simp at h
        have := ih (n + 1) k h
        omega
    · rw [if_neg hr] at h
      have := ih (n + 1) k h
      omega

theorem delRun_stops :
    ∀ (sims : List GpuSim) (n k : Nat), (delRun sims n).2 = some k →
      ∀ j ∈ (delRun sims n).1, j ≤ k := by
  intro sims
  induction sims with
  | nil => intro n k h; simp [delRun] at h
  | cons sim rest ih =>
    intro n k h j hj
    rw [delRun] at h hj
    by_cases hr : sim.hasRelease = true
    · rw [if_pos hr] at h hj
      by_cases hrr : sim.releaseRaises = true
      · rw [if_pos hrr] at h hj
        simp at h hj
        omega
      · rw [if_neg hrr] at h hj
        simp at h hj
        rcases hj with rfl | hj2
        · have := delRun_snd_ge rest (j + 1) k h
          omega
        · exact ih (n + 1) k h j hj2
    · rw [if_neg hr] at h hj
      exact ih (n + 1) k h j hj

/-- Claim C9 (amended): when no `release()` raises, `__del__` calls
`release` exactly once on each simulator owning a callable release
attribute (in slot order, skipping the others, with no duplicates) and
no exception escapes; a cell whose simulator pool was never initialized
releases nothing and does not throw; but when some release raises, the
loop stops there — simulators after the raising one are not released
(no per-simulator suppression). -/
theorem c9_release_loop {α : Type} (cell : Cell α) (sims : List GpuSim)
    (hok : ∀ sim ∈ sims, sim.releaseRaises = false)
    (hnone : cell.gpuSimulators = none) :
    delReleases sims = (hasReleaseIdxs sims, none) ∧
    (hasReleaseIdxs sims).Nodup ∧
    cellDel cell = ([], none) ∧
    (∀ sims2 k, (delReleases sims2).2 = some k →
      ∀ j ∈ (delReleases sims2).1, j ≤ k) := by
  refine ⟨?_, ?_, ?_, ?_⟩
  · exact delRun_no_raise sims 0 hok
  · have h1 : (sims.enum.map Prod.fst).Nodup := List.nodup_enum_map_fst sims
    have hsub : ((sims.enum.filter (fun p => p.2.hasRelease)).map Prod.fst).Sublist
        (sims.enum.map Prod.fst) := List.Sublist.map _ (List.filter_sublist _)
    exact List.Nodup.sublist hsub h1
  · simp [cellDel, hnone]
  · intro sims2 k h j hj
    exact delRun_stops sims2 0 k h j hj

/-- Witness for the amended claim C9: a pool of two simulators, the
second without a release attribute, and a non-GPU cell whose pool is
`None`. -/
theorem c9_release_loop_witness :
    delReleases [⟨true, false⟩, ⟨false, false⟩] =
      (hasReleaseIdxs [⟨true, false⟩, ⟨false, false⟩], none) ∧
    (hasReleaseIdxs [⟨true, false⟩, ⟨false, false⟩]).Nodup ∧
    cellDel (cellQ Mode.cpuQiskit) = ([], none) ∧
    (∀ sims2 k, (delReleases sims2).2 = some k →
      ∀ j ∈ (delReleases sims2).1, j ≤ k) :=
  c9_release_loop (cellQ Mode.cpuQiskit) [⟨true, false⟩, ⟨false, false⟩]
    (by decide) rfl

theorem getD_set_self {β : Type} (l : List β) (n : Nat) (a d : β) (h : n < l.length) :
    (l.set n a).getD n d = a := by
  rw [List.getD_eq_getElem?_getD, List.getElem?_set_eq_of_lt a h]
  rfl

theorem setSlot_setSlot {α : Type} (cell : Cell α) (k : Nat)
    (a b : Option (Blueprint α)) :
    setSlot (setSlot cell k a) k b = setSlot cell k b := by
  unfold setSlot
  simp [List.set_set]

theorem getD_setSlot_self {α : Type} (cell : Cell α) (k : Nat)
    (bp : Option (Blueprint α)) (h : k < cell.quantumMemoryStates.length) :
    (setSlot cell k bp).quantumMemoryStates.getD k none = bp := by
  unfold setSlot
  exact getD_set_self _ _ _ _ h

theorem write_single_ok {α : Type} [Field α] (cell : Cell α) (piS : α)
    (v : List α) (s : Int)
    (hmode : cell.backendMode ≠ Mode.gpu)
    (hval : 0 ≤ s ∧ s < (cell.memoryDepth : Int)) :
    write cell piS [v] [s] =
      ⟨.ok (setSlot cell s.toNat (some (mkBlueprint cell piS 0 s v))), []⟩ := by
  unfold write
  rw [if_neg (fun h => h rfl)]
  show writeGo piS cell [(0, v, s)] = _
  rw [writeGo]
  unfold writeItem
  rw [if_neg (not_not_intro hval), if_neg hmode]
  rfl

/-- Claim C6: in a non-GPU mode, writing vector `v` to slot `s` stores a
freshly built circuit whose operation list is exactly one `ry` and one
`rz` per qubit in qubit-index order, with angles taken from the learned
linear encoding of `v` reshaped into pairs and multiplied by pi
(modelled by `piS`); the new blueprint fully replaces the slot's prior
content, so after two writes to the same slot the stored blueprint — and
the circuit a subsequent `read` submits to the backend — reflects only
the second vector, with no accumulation. -/
theorem c6_write_overwrite {α : Type} [Field α] (cell : Cell α) (piS : α)
    (v1 v2 : List α) (s : Int)
    (hmode : cell.backendMode ≠ Mode.gpu)
    (hs0 : 0 ≤ s) (hs1 : s < (cell.memoryDepth : Int))
    (hlen : cell.quantumMemoryStates.length = cell.memoryDepth) :
    ∃ cell1 cell2 : Cell α,
      (write cell piS [v1] [s]).result = .ok cell1 ∧
      (write cell1 piS [v2] [s]).result = .ok cell2 ∧
      cell2 = setSlot cell s.toNat (some (mkBlueprint cell piS 0 s v2)) ∧
      cell2.quantumMemoryStates.getD s.toNat none = some (mkBlueprint cell piS 0 s v2) ∧
      (mkBlueprint cell piS 0 s v2).ops =
        (List.range cell.numQubits).flatMap (fun q =>
          [⟨Axis.ry, (cell.encodingLinear.apply v2).getD (2 * q) 0 * piS, q⟩,
           ⟨Axis.rz, (cell.encodingLinear.apply v2).getD (2 * q + 1) 0 * piS, q⟩]) ∧
      (∀ (env : Env α) (shots : Nat),
        env.toGateOk 0 = true → env.transpileOk 0 = true → env.runOk 0 = true →
        cell.backendPresent = true →
        (cell.backendMode = Mode.qrCloud →
          awaitJob (env.status 0) cell.jobTimeout cell.jobPollInterval = .ok ()) →
        ∀ c : Counts, env.resultCounts 0 = .ok c →
          (0, BCall.runCall (mkBlueprint cell piS 0 s v2).ops shots)
            ∈ (QMC.read cell2 env [s] shots).calls) := by
  have hval : 0 ≤ s ∧ s < (cell.memoryDepth : Int) := ⟨hs0, hs1⟩
  have hklen : s.toNat < cell.quantumMemoryStates.length := by
    rw [hlen]; omega
  refine ⟨setSlot cell s.toNat (some (mkBlueprint cell piS 0 s v1)),
    setSlot cell s.toNat (some (mkBlueprint cell piS 0 s v2)),
    ?_, ?_, rfl, ?_, rfl, ?_⟩
  · rw [write_single_ok cell piS v1 s hmode hval]
  · rw [write_single_ok (setSlot cell s.toNat (some (mkBlueprint cell piS 0 s v1)))
      piS v2 s hmode hval]
    show (Except.ok (setSlot (setSlot cell s.toNat (some (mkBlueprint cell piS 0 s v1)))
      s.toNat (some (mkBlueprint cell piS 0 s v2))) : Except WriteErr (Cell α)) = _
    rw [setSlot_setSlot]
  · exact getD_setSlot_self cell s.toNat _ hklen
  · intro env shots hgate htrans hrun hpres hawait c hres
    have hmode2 : (setSlot cell s.toNat
        (some (mkBlueprint cell piS 0 s v2))).backendMode ≠ Mode.gpu := hmode
    have hpres2 : (setSlot cell s.toNat
        (some (mkBlueprint cell piS 0 s v2))).backendPresent = true := hpres
    have hs12 : s < ((setSlot cell s.toNat
        (some (mkBlueprint cell piS 0 s v2))).memoryDepth : Int) := hs1
    have hawait2 : (setSlot cell s.toNat
          (some (mkBlueprint cell piS 0 s v2))).backendMode = Mode.qrCloud →
        awaitJob (env.status 0)
          (setSlot cell s.toNat (some (mkBlueprint cell piS 0 s v2))).jobTimeout
          (setSlot cell s.toNat (some (mkBlueprint cell piS 0 s v2))).jobPollInterval
          = .ok () := hawait
    have hops : slotOps (setSlot cell s.toNat (some (mkBlueprint cell piS 0 s v2))) s
        = (mkBlueprint cell piS 0 s v2).ops := by
      unfold slotOps
      rw [getD_setSlot_self cell s.toNat _ hklen]
      rfl
    rw [read_eq_go (setSlot cell s.toNat (some (mkBlueprint cell piS 0 s v2)))
      env [s] shots ⟨fun h => absurd h hmode2, fun _ => hpres2⟩]
    have henum : ([s] : List Int).enum = [(0, s)] := rfl
    rw [henum, readGo,
      readItem_ok_decoded (setSlot cell s.toNat (some (mkBlueprint cell piS 0 s v2)))
        env shots 0 s c hmode2 hs0 hs12 hgate htrans hrun hawait2 hres,
      hops]
    simp [readGo]

/-- Witness for claim C6: two writes of different vectors to slot 0 of a
concrete cpu-qiskit cell. -/
theorem c6_write_overwrite_witness :
    ∃ cell1 cell2 : Cell ℚ,
      (write (cellQ Mode.cpuQiskit) (22 / 7) [[1, 0]] [(0 : Int)]).result = .ok cell1 ∧
      (write cell1 (22 / 7) [[0, 1]] [(0 : Int)]).result = .ok cell2 ∧
      cell2 = setSlot (cellQ Mode.cpuQiskit) (0 : Int).toNat
        (some (mkBlueprint (cellQ Mode.cpuQiskit) (22 / 7) 0 0 [0, 1])) ∧
      cell2.quantumMemoryStates.getD (0 : Int).toNat none
        = some (mkBlueprint (cellQ Mode.cpuQiskit) (22 / 7) 0 0 [0, 1]) ∧
      (mkBlueprint (cellQ Mode.cpuQiskit) (22 / 7) 0 0 [0, 1]).ops =
        (List.range (cellQ Mode.cpuQiskit).numQubits).flatMap (fun q =>
          [⟨Axis.ry, ((cellQ Mode.cpuQiskit).encodingLinear.apply [0, 1]).getD (2 * q) 0
              * (22 / 7), q⟩,
           ⟨Axis.rz, ((cellQ Mode.cpuQiskit).encodingLinear.apply [0, 1]).getD (2 * q + 1) 0
              * (22 / 7), q⟩]) ∧
      (∀ (env : Env ℚ) (shots : Nat),
        env.toGateOk 0 = true → env.transpileOk 0 = true → env.runOk 0 = true →
        (cellQ Mode.cpuQiskit).backendPresent = true →
        ((cellQ Mode.cpuQiskit).backendMode = Mode.qrCloud →
          awaitJob (env.status 0) (cellQ Mode.cpuQiskit).jobTimeout
            (cellQ Mode.cpuQiskit).jobPollInterval = .ok ()) →
        ∀ c : Counts, env.resultCounts 0 = .ok c →
          (0, BCall.runCall (mkBlueprint (cellQ Mode.cpuQiskit) (22 / 7) 0 0 [0, 1]).ops shots)
            ∈ (QMC.read cell2 env [(0 : Int)] shots).calls) :=
  c6_write_overwrite (cellQ Mode.cpuQiskit) (22 / 7) [1, 0] [0, 1] 0
    (by decide) (by decide) (by decide) (by decide)

theorem fst_bound_of_mem_enumFrom {β : Type} :
    ∀ (l : List β) (n : Nat) (p : Nat × β), p ∈ l.enumFrom n →
      n ≤ p.1 ∧ p.1 < n + l.length := by
  intro l
  induction l with
  | nil => intro n p h; cases h
  | cons a rest ih =>
    intro n p h
    rw [List.enumFrom] at h
    rcases List.mem_cons.mp h with rfl | h2
    · simp
    · have := ih (n + 1) p h2
      constructor <;> [omega; (simp only [List.length_cons]; omega)]

theorem writeItem_calls_tag {α : Type} [Field α] (cell : Cell α) (piS : α)
    (i : Nat) (v : List α) (s : Int) :
    ∀ c ∈ (writeItem cell piS i v s).2, c.1 = i := by
  intro c hc
  unfold writeItem at hc
  split at hc
  · cases hc
  · split at hc
    · rcases List.mem_cons.mp hc with rfl | hc2
      · rfl
      · rcases List.mem_flatMap.mp hc2 with ⟨q, _, hq⟩
        rcases List.mem_cons.mp hq with rfl | hq2
        · rfl
        · rcases List.mem_cons.mp hq2 with rfl | hq3
          · rfl
          · cases hq3
    · cases hc

theorem runPhase_calls_tag {α : Type} [Field α] (cell : Cell α) (env : Env α)
    (i : Nat) (ops : List (RotOp α)) (shots : Nat) :
    ∀ c ∈ (runPhase cell env i ops shots).2, c.1 = i := by
  intro c hc
  unfold runPhase at hc
  repeat' split at hc
  all_goals
    simp only [List.mem_cons, List.not_mem_nil, or_false] at hc
  all_goals
    first
      | exact hc.elim
      | (rcases hc with rfl | rfl | rfl <;> rfl)
      | (rcases hc with rfl | rfl <;> rfl)
      | (rcases hc with rfl <;> rfl)
      | (rw [hc])

theorem readItem_calls_tag {α : Type} [Field α] (cell : Cell α) (env : Env α)
    (shots i : Nat) (s : Int) :
    ∀ c ∈ (readItem cell env shots i s).2.2, c.1 = i := by
  intro c hc
  unfold readItem at hc
  split at hc
  · cases hc
  · split at hc
    · split at hc <;>
        (simp only [List.mem_cons, List.not_mem_nil, or_false] at hc; rw [hc])
    · split at hc
      · cases hc
      · split at hc
        all_goals
          rename_i heq
          exact runPhase_calls_tag cell env i (slotOps cell s) shots c
            (by rw [heq]; exact hc)

theorem writeItem_ok_of_valid {α : Type} [Field α] (cell : Cell α) (piS : α)
    (i : Nat) (v : List α) (s : Int)
    (hv : 0 ≤ s ∧ s < (cell.memoryDepth : Int)) :
    ∃ cell1, (writeItem cell piS i v s).1 = .ok cell1 ∧
      cell1.memoryDepth = cell.memoryDepth := by
  unfold writeItem
  rw [if_neg (not_not_intro hv)]
  by_cases hb : cell.backendMode = Mode.gpu
  · rw [if_pos hb]; exact ⟨_, rfl, rfl⟩
  · rw [if_neg hb]; exact ⟨_, rfl, rfl⟩

theorem readItem_ok_of_valid {α : Type} [Field α] (cell : Cell α) (env : Env α)
    (shots i : Nat) (s : Int)
    (hv : 0 ≤ s ∧ s < (cell.memoryDepth : Int))
    (hbenign : (cell.backendMode = Mode.gpu → exceptOk (env.gpuMeasureRes i) = true) ∧
      (cell.backendMode ≠ Mode.gpu → env.toGateOk i = true ∨ env.rebuildOk i = true)) :
    ∃ row, (readItem cell env shots i s).1 = .ok row := by
  by_cases hb : cell.backendMode = Mode.gpu
  · unfold readItem
    rw [if_neg (not_not_intro hv), if_pos hb]
    rcases hg : env.gpuMeasureRes i with u | c
    · have h2 := hbenign.1 hb
      rw [hg] at h2
      simp [exceptOk] at h2
    · exact ⟨decodeRow cell c shots, rfl⟩
  · exact ⟨_, readItem_fst_nonGpu cell env shots i s hb hv (hbenign.2 hb)⟩

theorem writeGo_abort {α : Type} [Field α] (piS : α) :
    ∀ (lg : List (Nat × List α × Int)) (cell : Cell α) (i : Nat) (v : List α)
      (s : Int) (rest : List (Nat × List α × Int)),
      (∀ p ∈ lg, 0 ≤ p.2.2 ∧ p.2.2 < (cell.memoryDepth : Int)) →
      ¬ (0 ≤ s ∧ s < (cell.memoryDepth : Int)) →
      (writeGo piS cell (lg ++ (i, v, s) :: rest)).result = .error (.oob i s) ∧
      (∀ c ∈ (writeGo piS cell (lg ++ (i, v, s) :: rest)).calls, ∃ p ∈ lg, c.1 = p.1) := by
  intro lg
  induction lg with
  | nil =>
    intro cell i v s rest _ hbad
    rw [List.nil_append, writeGo]
    unfold writeItem
    rw [if_pos hbad]
    exact ⟨rfl, by intro c hc; cases hc⟩
  | cons p lg ih =>
    intro cell i v s rest hgood hbad
    obtain ⟨j, vj, sj⟩ := p
    have hv := hgood (j, vj, sj) (List.mem_cons_self _ _)
    obtain ⟨cell1, hr, hdep⟩ := writeItem_ok_of_valid cell piS j vj sj hv
    rcases hwi : writeItem cell piS j vj sj with ⟨r, cs⟩
    rw [hwi] at hr
    simp only at hr
    subst hr
    have hgood1 : ∀ p ∈ lg, 0 ≤ p.2.2 ∧ p.2.2 < (cell1.memoryDepth : Int) := by
      intro p hp
      rw [hdep]
      exact hgood p (List.mem_cons_of_mem _ hp)
    have hbad1 : ¬ (0 ≤ s ∧ s < (cell1.memoryDepth : Int)) := by
      rw [hdep]; exact hbad
    have hih := ih cell1 i v s rest hgood1 hbad1
    rw [List.cons_append, writeGo, hwi]
    constructor
    · simpa using hih.1
    · intro c hc
      have hc2 : c ∈ cs ++ (writeGo piS cell1 (lg ++ (i, v, s) :: rest)).calls := hc
      rcases List.mem_append.mp hc2 with h | h
      · exact ⟨(j, vj, sj), List.mem_cons_self _ _,
          writeItem_calls_tag cell piS j vj sj c (by rw [hwi]; exact h)⟩
      · obtain ⟨p, hp, hcp⟩ := hih.2 c h
        exact ⟨p, List.mem_cons_of_mem _ hp, hcp⟩

theorem readGo_abort {α : Type} [Field α] (cell : Cell α) (env : Env α) (shots : Nat)
    (hbenign : ∀ j, (cell.backendMode = Mode.gpu → exceptOk (env.gpuMeasureRes j) = true) ∧
      (cell.backendMode ≠ Mode.gpu → env.toGateOk j = true ∨ env.rebuildOk j = true)) :
    ∀ (lg : List (Nat × Int)) (i : Nat) (s : Int) (rest : List (Nat × Int)),
      (∀ p ∈ lg, 0 ≤ p.2 ∧ p.2 < (cell.memoryDepth : Int)) →
      ¬ (0 ≤ s ∧ s < (cell.memoryDepth : Int)) →
      (readGo cell env shots (lg ++ (i, s) :: rest)).result = .error (.slotOOB i s) ∧
      (∀ c ∈ (readGo cell env shots (lg ++ (i, s) :: rest)).calls, ∃ p ∈ lg, c.1 = p.1) := by
  intro lg
  induction lg with
  | nil =>
    intro i s rest _ hbad
    rw [List.nil_append, readGo]
    unfold readItem
    rw [if_pos hbad]
    exact ⟨rfl, by intro c hc; cases hc⟩
  | cons p lg ih =>
    intro i s rest hgood hbad
    obtain ⟨j, sj⟩ := p
    have hv := hgood (j, sj) (List.mem_cons_self _ _)
    obtain ⟨row, hr⟩ := readItem_ok_of_valid cell env shots j sj hv (hbenign j)
    rcases hri : readItem cell env shots j sj with ⟨r, ds, cs⟩
    rw [hri] at hr
    simp only at hr
    subst hr
    have hih := ih i s rest (fun p hp => hgood p (List.mem_cons_of_mem _ hp)) hbad
    rw [List.cons_append, readGo, hri]
    constructor
    · simp [hih.1, Except.map]
    · intro c hc
      have hc2 : c ∈ cs ++ (readGo cell env shots (lg ++ (i, s) :: rest)).calls := hc
      rcases List.mem_append.mp hc2 with h | h
      · exact ⟨(j, sj), List.mem_cons_self _ _,
          readItem_calls_tag cell env shots j sj c (by rw [hri]; exact h)⟩
      · obtain ⟨p, hp, hcp⟩ := hih.2 c h
        exact ⟨p, List.mem_cons_of_mem _ hp, hcp⟩

/-- Claim C4: when the batch contains an out-of-range slot index (here
at position `sgood.length`, after valid prefix `sgood`), both `write`
and `read` raise the out-of-bounds `ValueError` identifying that item
index and slot value, and no backend call is made for that item (all
recorded calls belong to earlier, valid items). -/
theorem c4_slot_validation {α : Type} [Field α] (cell : Cell α) (piS : α) (env : Env α)
    (shots : Nat) (vgood : List (List α)) (v : List α) (vrest : List (List α))
    (sgood : List Int) (s : Int) (srest : List Int)
    (hlen : vgood.length = sgood.length)
    (hlen2 : vrest.length = srest.length)
    (hgood : ∀ t ∈ sgood, 0 ≤ t ∧ t < (cell.memoryDepth : Int))
    (hbad : ¬ (0 ≤ s ∧ s < (cell.memoryDepth : Int)))
    (hpres : (cell.backendMode = Mode.gpu → cell.gpuSimulators.isSome = true) ∧
             (cell.backendMode ≠ Mode.gpu → cell.backendPresent = true))
    (hbenign : ∀ j, (cell.backendMode = Mode.gpu → exceptOk (env.gpuMeasureRes j) = true) ∧
      (cell.backendMode ≠ Mode.gpu → env.toGateOk j = true ∨ env.rebuildOk j = true)) :
    (write cell piS (vgood ++ v :: vrest) (sgood ++ s :: srest)).result
        = .error (.oob sgood.length s) ∧
    (∀ c ∈ (write cell piS (vgood ++ v :: vrest) (sgood ++ s :: srest)).calls,
        c.1 ≠ sgood.length) ∧
    (QMC.read cell env (sgood ++ s :: srest) shots).result
        = .error (.slotOOB sgood.length s) ∧
    (∀ c ∈ (QMC.read cell env (sgood ++ s :: srest) shots).calls,
        c.1 ≠ sgood.length) := by
  have henum : (sgood ++ s :: srest).enum
      = sgood.enum ++ (sgood.length, s) :: List.enumFrom (sgood.length + 1) srest := by
    rw [List.enum_append]
    rfl
  have hgoodEnum : ∀ p ∈ sgood.enum, 0 ≤ p.2 ∧ p.2 < (cell.memoryDepth : Int) :=
    fun p hp => hgood p.2 (snd_mem_of_mem_enum sgood p hp)
  have hread := readGo_abort cell env shots hbenign sgood.enum sgood.length s
    (List.enumFrom (sgood.length + 1) srest) hgoodEnum hbad
  have hreadEq : QMC.read cell env (sgood ++ s :: srest) shots
      = readGo cell env shots (sgood.enum ++ (sgood.length, s)
          :: List.enumFrom (sgood.length + 1) srest) := by
    rw [read_eq_go cell env _ shots hpres, henum]
  have hfstEnum : ∀ p : Nat × Int, p ∈ sgood.enum → p.1 < sgood.length := by
    intro p hp
    have := fst_bound_of_mem_enumFrom sgood 0 p hp
    omega
  have hzip : ((vgood ++ v :: vrest).zip (sgood ++ s :: srest))
      = vgood.zip sgood ++ (v, s) :: vrest.zip srest :=
    List.zip_append hlen
  have hlenzip : (vgood.zip sgood).length = sgood.length := by
    rw [List.length_zip, hlen]
    exact min_self _
  have hw : (((vgood ++ v :: vrest).zip (sgood ++ s :: srest)).enum.map
        (fun p => (p.1, p.2.1, p.2.2)))
      = ((vgood.zip sgood).enum.map (fun p => (p.1, p.2.1, p.2.2)))
        ++ (sgood.length, v, s)
          :: ((List.enumFrom (sgood.length + 1) (vrest.zip srest)).map
            (fun p => (p.1, p.2.1, p.2.2))) := by
    rw [hzip, List.enum_append, List.map_append, hlenzip]
    rfl
  have hgoodW : ∀ p ∈ ((vgood.zip sgood).enum.map (fun p => (p.1, p.2.1, p.2.2))),
      0 ≤ p.2.2 ∧ p.2.2 < (cell.memoryDepth : Int) := by
    intro p hp
    rcases List.mem_map.mp hp with ⟨q, hq, rfl⟩
    have h2 : q.2 ∈ vgood.zip sgood := snd_mem_of_mem_enum _ q hq
    exact hgood q.2.2 (List.of_mem_zip h2).2
  have hwrite := writeGo_abort piS
    ((vgood.zip sgood).enum.map (fun p => (p.1, p.2.1, p.2.2))) cell sgood.length v s
    ((List.enumFrom (sgood.length + 1) (vrest.zip srest)).map
      (fun p => (p.1, p.2.1, p.2.2))) hgoodW hbad
  have hlens : (sgood ++ s :: srest).length = (vgood ++ v :: vrest).length := by
    simp [hlen, hlen2]
  have hwr : write cell piS (vgood ++ v :: vrest) (sgood ++ s :: srest)
      = writeGo piS cell (((vgood ++ v :: vrest).zip (sgood ++ s :: srest)).enum.map
          (fun p => (p.1, p.2.1, p.2.2))) := by
    unfold write
    rw [if_neg (not_not_intro hlens)]
  have hfstW : ∀ p : Nat × List α × Int,
      p ∈ ((vgood.zip sgood).enum.map (fun p => (p.1, p.2.1, p.2.2))) →
      p.1 < sgood.length := by
    intro p hp
    rcases List.mem_map.mp hp with ⟨q, hq, rfl⟩
    have := fst_bound_of_mem_enumFrom (vgood.zip sgood) 0 q hq
    omega
  refine ⟨?_, ?_, ?_, ?_⟩
  · rw [hwr, hw]
    exact hwrite.1
  · intro c hc
    rw [hwr, hw] at hc
    obtain ⟨p, hp, hcp⟩ := hwrite.2 c hc
    have := hfstW p hp
    omega
  · rw [hreadEq]
    exact hread.1
  · intro c hc
    rw [hreadEq] at hc
    obtain ⟨p, hp, hcp⟩ := hread.2 c hc
    have := hfstEnum p hp
    omega

/-- Witness for claim C4: a 2-item batch whose second slot index (5) is
out of range for a depth-2 cell. -/
theorem c4_slot_validation_witness :
    (write (cellQ Mode.cpuQiskit) (22 / 7) [[1, 0], [1, 1]] [(0 : Int), 5]).result
        = .error (.oob 1 5) ∧
    (∀ c ∈ (write (cellQ Mode.cpuQiskit) (22 / 7) [[1, 0], [1, 1]] [(0 : Int), 5]).calls,
        c.1 ≠ 1) ∧
    (QMC.read (cellQ Mode.cpuQiskit) envOkQ [(0 : Int), 5] 9).result
        = .error (.slotOOB 1 5) ∧
    (∀ c ∈ (QMC.read (cellQ Mode.cpuQiskit) envOkQ [(0 : Int), 5] 9).calls,
        c.1 ≠ 1) :=
  c4_slot_validation (cellQ Mode.cpuQiskit) (22 / 7) envOkQ 9 [[1, 0]] [1, 1] []
    [(0 : Int)] 5 [] (by decide) (by decide) (by decide) (by decide) (by decide)
    (fun j => ⟨fun _ => rfl, fun _ => Or.inl rfl⟩)
